import Mathlib

/-!
Shallow embedding of the SER (Susceptible/Excited/Refractory) simulation of
this repository.

The file embeds:
* the driver function `simulation` of `src/simulation.py` (seeding the global
  pseudo-random generator, building an `SERModel`, running it, and remapping
  the internal refractory marker `-1` to the external sentinel `2`);
* the `SERModel` engine itself.  The engine lives in `model.py`, which is
  imported by `src/simulation.py` but is not part of the available sources, so
  it is modelled from the specification (per-node transition rule, synchronous
  update, fixed node order for random draws, transient discard, configuration
  validation).

Machine integers are modelled as `Nat`, connectome weights and probabilities
as `ℚ`, and node states as `Int` (`0` quiescent, `1` excited, `-1` internal
refractory marker, `2` external refractory sentinel).
-/

/-- Word size of the pseudo-random generator state. -/
def M64 : Nat := 2 ^ 64

/-- Range of a single pseudo-random output word. -/
def M32 : Nat := 2 ^ 32

/-- Modelled from the spec: the single seeded pseudo-random generator
(numpy's global Mersenne Twister is abstracted by a deterministic 64-bit
linear-congruential generator; the claims depend only on determinism and on
the fixed draw discipline, never on the concrete stream). One step returns
an output word in `[0, M32)` and the successor state. -/
def rngNext (g : Nat) : Nat × Nat :=
  let g1 := (6364136223846793005 * g + 1442695040888963407) % M64
  (g1 % M32, g1)

/-- Modelled from the spec: a Bernoulli draw with success probability `p`
consumes one generator word `r` and succeeds iff `r < p * M32`. For `p = 0`
it never succeeds, for `p = 1` it always succeeds. -/
def bernDraw (p : ℚ) (g : Nat) : Bool × Nat :=
  let r := (rngNext g).1
  (decide ((r : ℚ) < p * (M32 : ℚ)), (rngNext g).2)

/-- Embedding of `np.random.seed(seed)` from `src/simulation.py` line 49:
the global generator state is replaced by a state depending only on the
seed; the previous state `_g` is discarded. -/
def np_random_seed (seed : Nat) (_g : Nat) : Nat := seed % M64

/-- Weighted input of node `n`: the sum of the incoming edge weights
`W[n][j]` over the nodes `j` that are Excited (state `1`) in snapshot `s`.
Modelled from the spec (transition engine, network-driven activation). -/
def netInput (W : List (List ℚ)) (s : List Int) (n : Nat) : ℚ :=
  (List.zipWith (fun w v => if v = 1 then w else 0) (W.getD n []) s).sum

/-- Modelled from the spec: the per-node transition rule of the engine,
reading only the step-`t` snapshot `s`.
* Excited (`1`) becomes the internal refractory marker `-1`, no draw;
* refractory (`-1`) recovers to quiescent (`0`) iff a Bernoulli draw with
  probability `rf` succeeds, otherwise stays `-1`;
* quiescent (`0`) becomes excited iff a Bernoulli draw with probability `ri`
  succeeds or the weighted excited input exceeds the threshold `T`
  (logical OR; the draw is consumed regardless of the network condition). -/
def stepNode (W : List (List ℚ)) (T ri rf : ℚ) (s : List Int) (n : Nat)
    (g : Nat) : Int × Nat :=
  let v := s.getD n 0
  if v = 1 then (-1, g)
  else if v = -1 then
    (if (bernDraw rf g).1 then 0 else -1, (bernDraw rf g).2)
  else
    (if (bernDraw ri g).1 = true ∨ T < netInput W s n then 1 else 0,
      (bernDraw ri g).2)

/-- Modelled from the spec: apply `stepNode` to the listed node indices in
order, threading the generator state through the nodes (fixed, reproducible
node order). Returns the list of next states and the final generator state. -/
def stepRow (W : List (List ℚ)) (T ri rf : ℚ) (s : List Int) :
    List Nat → Nat → List Int × Nat
  | [], g => ([], g)
  | n :: rest, g =>
    let p := stepNode W T ri rf s n g
    let q := stepRow W T ri rf s rest p.2
    (p.1 :: q.1, q.2)

/-- Modelled from the spec: one synchronous step of the transition engine,
computing the full next snapshot from snapshot `s` (nodes updated in index
order `0, 1, …`, all reading only `s`). -/
def step (W : List (List ℚ)) (T ri rf : ℚ) (s : List Int) (g : Nat) :
    List Int × Nat :=
  stepRow W T ri rf s (List.range s.length) g

/-- The generator state consumed by node `n` inside one `step`: the state
left after processing nodes `0 … n-1`. -/
def rngAt (W : List (List ℚ)) (T ri rf : ℚ) (s : List Int) (g : Nat)
    (n : Nat) : Nat :=
  (stepRow W T ri rf s ((List.range s.length).take n) g).2

/-- Modelled from the spec: uniform selection without replacement, realised
as a pseudo-random permutation. At each round one position of the remaining
list is drawn and moved to the front of the result; `fuel` bounds the
recursion and is instantiated with the list length. -/
def shuffleAux : Nat → List Nat → Nat → List Nat × Nat
  | 0, _, g => ([], g)
  | _ + 1, [], g => ([], g)
  | fuel + 1, a :: t, g =>
    let j := (rngNext g).1 % (a :: t).length
    let q := shuffleAux fuel ((a :: t).eraseIdx j) (rngNext g).2
    ((a :: t).getD j a :: q.1, q.2)

/-- Modelled from the spec: pseudo-random permutation of a list of node
indices. -/
def shuffle (l : List Nat) (g : Nat) : List Nat × Nat :=
  shuffleAux l.length l g

/-- Number of nodes initially Excited: `round(prop_active * n_nodes)`,
modelled from the spec (`initialize`). -/
def numExcited (p : ℚ) (n : Nat) : Nat := (round (p * (n : ℚ))).toNat

/-- Modelled from the spec: `initialize(n_nodes, prop_active, rng)` selects,
without replacement, `round(prop_active * n_nodes)` nodes uniformly at
random to start Excited (`1`); all others start Quiescent (`0`); no node
starts Refractory. -/
def initSnapshot (n : Nat) (p : ℚ) (g : Nat) : List Int × Nat :=
  let chosen := ((shuffle (List.range n) g).1).take (numExcited p n)
  ((List.range n).map (fun i => if i ∈ chosen then (1 : Int) else 0),
    (shuffle (List.range n) g).2)

/-- The `SERModel` parameter record, with the constructor-argument names used
at `src/simulation.py` lines 52-58. -/
structure SERModel where
  n_steps : Nat
  n_transient : Nat
  prob_spont_act : ℚ
  prob_recovery : ℚ
  prop_e : ℚ
  threshold : ℚ
deriving Repr

/-- Modelled from the spec: the internal trajectory, snapshots
`s_0, …, s_{count-1}` with `s_0` the given snapshot and each successor
produced by one engine `step`. -/
def trajAux (W : List (List ℚ)) (T ri rf : ℚ) :
    Nat → List Int → Nat → List (List Int)
  | 0, _, _ => []
  | count + 1, s, g =>
    s :: trajAux W T ri rf count (step W T ri rf s g).1 (step W T ri rf s g).2

/-- Modelled from the spec: the full internal trajectory of a run —
the initial snapshot from `initialize` followed by `n_steps - 1` engine
steps (snapshots for steps `0 … n_steps - 1`, internal refractory marker
`-1`). -/
def SERModel.trajectory (m : SERModel) (W : List (List ℚ)) (g : Nat) :
    List (List Int) :=
  trajAux W m.threshold m.prob_spont_act m.prob_recovery m.n_steps
    (initSnapshot W.length m.prop_e g).1 (initSnapshot W.length m.prop_e g).2

/-- Configuration errors detected before any simulation step runs.
Modelled from the spec (failure policy of the driver). -/
inductive ConfigError where
  | badTransient : ConfigError
  | notSquare : ConfigError
  | probOutOfRange : ConfigError
deriving Repr, DecidableEq

/-- Modelled from the spec: `SERModel.simulate` validates the configuration
(`n_transient < n_steps`, square connectome, probabilities in `[0,1]`)
before any step executes, then runs the trajectory and returns the snapshots
for steps `n_transient … n_steps - 1` (internal refractory marker `-1` in
every returned cell of a refractory node). -/
def SERModel.simulate (m : SERModel) (W : List (List ℚ)) (g : Nat) :
    Except ConfigError (List (List Int)) :=
  if m.n_steps ≤ m.n_transient then .error .badTransient
  else if ¬ (∀ row ∈ W, row.length = W.length) then .error .notSquare
  else if ¬ (0 ≤ m.prob_spont_act ∧ m.prob_spont_act ≤ 1 ∧
      0 ≤ m.prob_recovery ∧ m.prob_recovery ≤ 1 ∧
      0 ≤ m.prop_e ∧ m.prop_e ≤ 1) then .error .probOutOfRange
  else .ok ((m.trajectory W g).drop m.n_transient)

/-- The driver's sentinel remapping from `src/simulation.py` line 62:
`activation_matrix[activation_matrix == -1] = 2`. -/
def remapCell (v : Int) : Int := if v = -1 then 2 else v

/-- Embedding of the `simulation` function of `src/simulation.py`
(lines 38-63): seed the global generator, build the `SERModel` with the
given parameters, run `simulate` on the connectome, and remap the internal
refractory marker `-1` to the external sentinel `2`. The extra argument
`g0` is the state of the global generator before the call; the call
overwrites it via `np_random_seed`. -/
def simulation (n_steps n_therm : Nat) (ri rf prop_active T : ℚ)
    (conn_matrix : List (List ℚ)) (seed : Nat) (g0 : Nat) :
    Except ConfigError (List (List Int)) :=
  let g := np_random_seed seed g0
  let model : SERModel := ⟨n_steps, n_therm, ri, rf, prop_active, T⟩
  Except.map (fun mat => mat.map (fun row => row.map remapCell))
    (model.simulate conn_matrix g)

/-- Decidable equality on `Except`, used to evaluate concrete runs. -/
instance instDecEqExcept {ε α : Type} [DecidableEq ε] [DecidableEq α] :
    DecidableEq (Except ε α) := fun x y =>
  match x, y with
  | .error a, .error b =>
    if h : a = b then isTrue (by rw [h])
    else isFalse (fun hc => h (by injection hc))
  | .error _, .ok _ => isFalse (fun hc => Except.noConfusion hc)
  | .ok _, .error _ => isFalse (fun hc => Except.noConfusion hc)
  | .ok a, .ok b =>
    if h : a = b then isTrue (by rw [h])
    else isFalse (fun hc => h (by injection hc))

/-- Returns true iff the run failed, i.e. produced no activation matrix. -/
def isConfigFailure (x : Except ConfigError (List (List Int))) : Bool :=
  match x with
  | .error _ => true
  | .ok _ => false

/-! ### Basic lemmas about the engine step -/

theorem stepNode_val (W : List (List ℚ)) (T ri rf : ℚ) (s : List Int)
    (n : Nat) (g : Nat) :
    (stepNode W T ri rf s n g).1 = -1 ∨ (stepNode W T ri rf s n g).1 = 0 ∨
      (stepNode W T ri rf s n g).1 = 1 := by
  unfold stepNode
  dsimp only
  split
  · exact Or.inl rfl
  · split
    · split
      · exact Or.inr (Or.inl rfl)
      · exact Or.inl rfl
    · split
      · exact Or.inr (Or.inr rfl)
      · exact Or.inr (Or.inl rfl)

theorem stepNode_excited (W : List (List ℚ)) (T ri rf : ℚ) (s : List Int)
    (n : Nat) (g : Nat) (h : s.getD n 0 = 1) :
    (stepNode W T ri rf s n g).1 = -1 := by
  unfold stepNode
  dsimp only
  rw [if_pos h]

theorem stepNode_quiescent (W : List (List ℚ)) (T ri rf : ℚ) (s : List Int)
    (n : Nat) (g : Nat) (h : s.getD n 0 = 0) :
    (stepNode W T ri rf s n g).1 =
      if (bernDraw ri g).1 = true ∨ T < netInput W s n then 1 else 0 := by
  have h1 : ¬ s.getD n 0 = 1 := by rw [h]; decide
  have h2 : ¬ s.getD n 0 = -1 := by rw [h]; decide
  unfold stepNode
  dsimp only
  rw [if_neg h1, if_neg h2]

theorem stepRow_fst_length (W : List (List ℚ)) (T ri rf : ℚ) (s : List Int) :
    ∀ (idxs : List Nat) (g : Nat),
      (stepRow W T ri rf s idxs g).1.length = idxs.length
  | [], _ => rfl
  | n :: rest, g => by
    simp [stepRow, stepRow_fst_length W T ri rf s rest]

theorem stepRow_getD (W : List (List ℚ)) (T ri rf : ℚ) (s : List Int) :
    ∀ (idxs : List Nat) (g : Nat) (k : Nat), k < idxs.length →
      (stepRow W T ri rf s idxs g).1.getD k 0 =
        (stepNode W T ri rf s (idxs.getD k 0)
          ((stepRow W T ri rf s (idxs.take k) g).2)).1
  | [], _, k, h => absurd h (by simp)
  | n :: rest, g, 0, _ => by
    simp [stepRow]
  | n :: rest, g, k + 1, h => by
    have ih := stepRow_getD W T ri rf s rest
      (stepNode W T ri rf s n g).2 k (by simpa using h)
    simp only [stepRow, List.getD_cons_succ, List.take_succ_cons]
    exact ih

theorem stepRow_mem (W : List (List ℚ)) (T ri rf : ℚ) (s : List Int) :
    ∀ (idxs : List Nat) (g : Nat) (v : Int),
      v ∈ (stepRow W T ri rf s idxs g).1 → v = -1 ∨ v = 0 ∨ v = 1
  | [], _, v, h => absurd h (by simp [stepRow])
  | n :: rest, g, v, h => by
    simp only [stepRow, List.mem_cons] at h
    rcases h with h | h
    · rw [h]; exact stepNode_val W T ri rf s n g
    · exact stepRow_mem W T ri rf s rest _ v h

theorem step_length (W : List (List ℚ)) (T ri rf : ℚ) (s : List Int)
    (g : Nat) : (step W T ri rf s g).1.length = s.length := by
  unfold step
  rw [stepRow_fst_length, List.length_range]

theorem step_getD (W : List (List ℚ)) (T ri rf : ℚ) (s : List Int) (g : Nat)
    (n : Nat) (h : n < s.length) :
    (step W T ri rf s g).1.getD n 0 =
      (stepNode W T ri rf s n (rngAt W T ri rf s g n)).1 := by
  unfold step rngAt
  rw [stepRow_getD W T ri rf s (List.range s.length) g n (by simpa using h)]
  congr 1
  rw [List.getD_eq_getElem _ _ (by simpa using h)]
  simp

theorem step_mem (W : List (List ℚ)) (T ri rf : ℚ) (s : List Int) (g : Nat)
    (v : Int) (h : v ∈ (step W T ri rf s g).1) : v = -1 ∨ v = 0 ∨ v = 1 :=
  stepRow_mem W T ri rf s (List.range s.length) g v h

theorem step_getD_val (W : List (List ℚ)) (T ri rf : ℚ) (s : List Int)
    (g : Nat) (n : Nat) :
    (step W T ri rf s g).1.getD n 0 = -1 ∨ (step W T ri rf s g).1.getD n 0 = 0 ∨
      (step W T ri rf s g).1.getD n 0 = 1 := by
  by_cases h : n < (step W T ri rf s g).1.length
  · rw [List.getD_eq_getElem _ _ h]
    exact step_mem W T ri rf s g _ (List.getElem_mem h)
  · rw [List.getD_eq_default _ _ (Nat.le_of_not_lt h)]
    exact Or.inr (Or.inl rfl)


/-! ### Trajectory and initial-snapshot lemmas -/

theorem trajAux_length (W : List (List ℚ)) (T ri rf : ℚ) :
    ∀ (count : Nat) (s : List Int) (g : Nat),
      (trajAux W T ri rf count s g).length = count
  | 0, _, _ => rfl
  | count + 1, s, g => by
    simp [trajAux, trajAux_length W T ri rf count]

theorem trajAux_row_length (W : List (List ℚ)) (T ri rf : ℚ) :
    ∀ (count : Nat) (s : List Int) (g : Nat) (row : List Int),
      row ∈ trajAux W T ri rf count s g → row.length = s.length
  | 0, _, _, _, h => absurd h (by simp [trajAux])
  | count + 1, s, g, row, h => by
    simp only [trajAux, List.mem_cons] at h
    rcases h with h | h
    · rw [h]
    · rw [trajAux_row_length W T ri rf count _ _ row h, step_length]

theorem trajAux_mem (W : List (List ℚ)) (T ri rf : ℚ) :
    ∀ (count : Nat) (s : List Int) (g : Nat),
      (∀ v ∈ s, v = -1 ∨ v = 0 ∨ v = 1) →
      ∀ row ∈ trajAux W T ri rf count s g, ∀ v ∈ row, v = -1 ∨ v = 0 ∨ v = 1
  | 0, _, _, _, _, h, _, _ => absurd h (by simp [trajAux])
  | count + 1, s, g, hs, row, h, v, hv => by
    simp only [trajAux, List.mem_cons] at h
    rcases h with h | h
    · exact hs v (h ▸ hv)
    · exact trajAux_mem W T ri rf count _ _
        (fun w hw => step_mem W T ri rf s g w hw) row h v hv

theorem trajAux_getD_succ (W : List (List ℚ)) (T ri rf : ℚ) (count : Nat)
    (s : List Int) (g : Nat) (t : Nat) :
    (trajAux W T ri rf (count + 1) s g).getD (t + 1) [] =
      (trajAux W T ri rf count (step W T ri rf s g).1
        (step W T ri rf s g).2).getD t [] := by
  simp [trajAux]

theorem initSnapshot_length (n : Nat) (p : ℚ) (g : Nat) :
    (initSnapshot n p g).1.length = n := by
  unfold initSnapshot
  simp

theorem initSnapshot_mem (n : Nat) (p : ℚ) (g : Nat) (v : Int)
    (h : v ∈ (initSnapshot n p g).1) : v = 0 ∨ v = 1 := by
  unfold initSnapshot at h
  simp only [List.mem_map, List.mem_range] at h
  obtain ⟨i, _, hi⟩ := h
  by_cases hmem : i ∈ ((shuffle (List.range n) g).1).take (numExcited p n)
  · rw [if_pos hmem] at hi
    exact Or.inr hi.symm
  · rw [if_neg hmem] at hi
    exact Or.inl hi.symm

/-! ### Inversion of a successful `simulate` -/

theorem simulate_ok (m : SERModel) (W : List (List ℚ)) (g : Nat)
    (res : List (List Int)) (h : m.simulate W g = Except.ok res) :
    res = (m.trajectory W g).drop m.n_transient ∧
      m.n_transient < m.n_steps ∧ (∀ row ∈ W, row.length = W.length) ∧
      0 ≤ m.prob_spont_act ∧ m.prob_spont_act ≤ 1 ∧
      0 ≤ m.prob_recovery ∧ m.prob_recovery ≤ 1 ∧
      0 ≤ m.prop_e ∧ m.prop_e ≤ 1 := by
  unfold SERModel.simulate at h
  split at h
  · exact absurd h (by simp)
  · split at h
    · exact absurd h (by simp)
    · split at h
      · exact absurd h (by simp)
      · rename_i h1 h2 h3
        injection h with h
        push_neg at h3
        refine ⟨h.symm, Nat.lt_of_not_le h1, not_not.mp h2, ?_⟩
        tauto

theorem simulation_ok (n_steps n_therm : Nat) (ri rf prop_active T : ℚ)
    (W : List (List ℚ)) (seed g0 : Nat) (m : List (List Int))
    (h : simulation n_steps n_therm ri rf prop_active T W seed g0 =
      Except.ok m) :
    ∃ res, (SERModel.mk n_steps n_therm ri rf prop_active T).simulate W
        (np_random_seed seed g0) = Except.ok res ∧
      m = res.map (fun row => row.map remapCell) := by
  unfold simulation at h
  dsimp only at h
  cases hsim : (SERModel.mk n_steps n_therm ri rf prop_active T).simulate W
      (np_random_seed seed g0) with
  | error e => rw [hsim] at h; exact absurd h (by simp [Except.map])
  | ok res =>
    rw [hsim] at h
    simp only [Except.map] at h
    injection h with h
    exact ⟨res, rfl, h.symm⟩

/-! ### Shuffle is a permutation; counting the initial snapshot -/

theorem getD_cons_eraseIdx_perm {α : Type} :
    ∀ (l : List α) (j : Nat) (d : α), j < l.length →
      (l.getD j d :: l.eraseIdx j).Perm l
  | [], j, _, h => absurd h (by simp)
  | a :: t, 0, d, _ => by simp
  | a :: t, j + 1, d, h => by
    have ih := getD_cons_eraseIdx_perm t j d (by simpa using h)
    simp only [List.getD_cons_succ, List.eraseIdx_cons_succ]
    exact (List.Perm.swap a (t.getD j d) (t.eraseIdx j)).trans (ih.cons a)

theorem shuffleAux_perm :
    ∀ (fuel : Nat) (l : List Nat) (g : Nat), l.length ≤ fuel →
      (shuffleAux fuel l g).1.Perm l
  | 0, l, _, h => by
    have : l = [] := List.eq_nil_of_length_eq_zero (Nat.le_zero.mp h)
    subst this
    exact List.Perm.refl _
  | _ + 1, [], _, _ => List.Perm.refl _
  | fuel + 1, a :: t, g, h => by
    have hj : (rngNext g).1 % (a :: t).length < (a :: t).length :=
      Nat.mod_lt _ (by simp)
    have hlen : ((a :: t).eraseIdx ((rngNext g).1 % (a :: t).length)).length ≤
        fuel := by
      rw [List.length_eraseIdx]
      simp only [hj, if_pos]
      omega
    have ih := shuffleAux_perm fuel
      ((a :: t).eraseIdx ((rngNext g).1 % (a :: t).length)) (rngNext g).2 hlen
    simp only [shuffleAux]
    exact (ih.cons _).trans (getD_cons_eraseIdx_perm _ _ _ hj)

theorem shuffle_perm (l : List Nat) (g : Nat) : (shuffle l g).1.Perm l :=
  shuffleAux_perm l.length l g (Nat.le_refl _)

theorem count_one_eq_filter_length (chosen : List Nat) :
    ∀ l : List Nat,
      ((l.map (fun i => if i ∈ chosen then (1 : Int) else 0)).count 1) =
        (l.filter (fun i => decide (i ∈ chosen))).length
  | [] => rfl
  | a :: t => by
    by_cases hm : a ∈ chosen
    · simp [List.count_cons, hm, count_one_eq_filter_length chosen t]
    · simp [List.count_cons, hm, count_one_eq_filter_length chosen t]

theorem count_zero_add_count_one :
    ∀ s : List Int, (∀ v ∈ s, v = 0 ∨ v = 1) →
      s.count 0 + s.count 1 = s.length
  | [], _ => rfl
  | a :: t, h => by
    have ht := count_zero_add_count_one t (fun v hv => h v (List.mem_cons_of_mem a hv))
    rcases h a (List.mem_cons_self a t) with ha | ha <;>
      subst ha <;> simp [List.count_cons] <;> omega

theorem numExcited_le (p : ℚ) (n : Nat) (_h0 : 0 ≤ p) (h1 : p ≤ 1) :
    numExcited p n ≤ n := by
  unfold numExcited
  have hmul : p * (n : ℚ) ≤ (n : ℚ) :=
    mul_le_of_le_one_left (by positivity) h1
  have hround : round (p * (n : ℚ)) ≤ (n : Int) := by
    rw [round_eq]
    have : (⌊(n : ℚ) + 1 / 2⌋ : Int) = (n : Int) := by
      have hh : ((1 : ℚ) / 2 + (n : ℚ)) = (n : ℚ) + 1 / 2 := by ring
      rw [← hh, Int.floor_add_nat]
      norm_num
    calc ⌊p * (n : ℚ) + 1 / 2⌋ ≤ ⌊(n : ℚ) + 1 / 2⌋ :=
          Int.floor_le_floor (by linarith)
      _ = (n : Int) := this
  omega

theorem filter_mem_perm (chosen : List Nat) (n : Nat)
    (hnd : chosen.Nodup) (hlt : ∀ x ∈ chosen, x < n) :
    ((List.range n).filter (fun i => decide (i ∈ chosen))).Perm chosen := by
  apply (List.perm_ext_iff_of_nodup
    ((List.nodup_range n).filter _) hnd).mpr
  intro a
  simp only [List.mem_filter, List.mem_range, decide_eq_true_eq]
  exact ⟨fun h => h.2, fun h => ⟨hlt a h, h⟩⟩

/-! ### Lemmas for the no-coupling boundary and excited decay -/

theorem bernDraw_zero (g : Nat) : (bernDraw 0 g).1 = false := by
  unfold bernDraw
  simp

theorem zipWith_zero_sum :
    ∀ (ws : List ℚ) (vs : List Int), (∀ w ∈ ws, w = 0) →
      (List.zipWith (fun w v => if v = 1 then w else 0) ws vs).sum = 0
  | [], _, _ => by simp
  | w :: ws, [], _ => by simp
  | w :: ws, v :: vs, h => by
    have hw : w = 0 := h w (List.mem_cons_self w ws)
    have ih := zipWith_zero_sum ws vs
      (fun x hx => h x (List.mem_cons_of_mem w hx))
    simp only [List.zipWith_cons_cons, List.sum_cons, ih, add_zero]
    split <;> simp [hw]

theorem netInput_zero (W : List (List ℚ)) (s : List Int) (n : Nat)
    (hW : ∀ row ∈ W, ∀ w ∈ row, w = 0) : netInput W s n = 0 := by
  unfold netInput
  apply zipWith_zero_sum
  intro w hw
  by_cases hn : n < W.length
  · rw [List.getD_eq_getElem _ _ hn] at hw
    exact hW _ (List.getElem_mem hn) w hw
  · rw [List.getD_eq_default _ _ (Nat.le_of_not_lt hn)] at hw
    exact absurd hw (List.not_mem_nil w)

theorem step_no_activation (W : List (List ℚ)) (T rf : ℚ) (s : List Int)
    (g : Nat) (i : Nat) (hW : ∀ row ∈ W, ∀ w ∈ row, w = 0) (hT : 0 ≤ T)
    (hi : s.getD i 0 ≠ 1) : (step W T 0 rf s g).1.getD i 0 ≠ 1 := by
  by_cases hlen : i < s.length
  · rw [step_getD W T 0 rf s g i hlen]
    unfold stepNode
    dsimp only
    rw [if_neg hi]
    by_cases hr : s.getD i 0 = -1
    · rw [if_pos hr]
      split <;> simp
    · rw [if_neg hr]
      have hb : (bernDraw 0 (rngAt W T 0 rf s g i)).1 = false := bernDraw_zero _
      have hn : ¬ T < netInput W s i := by
        rw [netInput_zero W s i hW]
        exact not_lt.mpr hT
      rw [if_neg (by simp [hb, hn])]
      simp
  · rw [List.getD_eq_default _ _ (by rw [step_length]; exact Nat.le_of_not_lt hlen)]
    decide

theorem trajAux_no_activation (W : List (List ℚ)) (T rf : ℚ)
    (hW : ∀ row ∈ W, ∀ w ∈ row, w = 0) (hT : 0 ≤ T) (i : Nat) :
    ∀ (count : Nat) (s : List Int) (g : Nat), s.getD i 0 ≠ 1 →
      ∀ t : Nat, ((trajAux W T 0 rf count s g).getD t []).getD i 0 ≠ 1
  | 0, _, _, _, t => by simp [trajAux]
  | count + 1, s, g, hs, 0 => by simpa [trajAux] using hs
  | count + 1, s, g, hs, t + 1 => by
    rw [trajAux_getD_succ]
    exact trajAux_no_activation W T rf hW hT i count _ _
      (step_no_activation W T rf s g i hW hT hs) t

theorem trajAux_excited_decay (W : List (List ℚ)) (T ri rf : ℚ) :
    ∀ (t count : Nat) (s : List Int) (g : Nat) (i : Nat),
      t + 1 < count →
      ((trajAux W T ri rf count s g).getD t []).getD i 0 = 1 →
      ((trajAux W T ri rf count s g).getD (t + 1) []).getD i 0 = -1
  | 0, 0, s, g, i, h, _ => absurd h (by omega)
  | 0, 1, s, g, i, h, _ => absurd h (by omega)
  | 0, count + 2, s, g, i, _, hx => by
    simp only [trajAux, List.getD_cons_zero, List.getD_cons_succ] at hx ⊢
    have hlen : i < s.length := by
      by_contra hc
      rw [List.getD_eq_default _ _ (Nat.le_of_not_lt hc)] at hx
      exact absurd hx (by decide)
    rw [step_getD W T ri rf s g i hlen]
    exact stepNode_excited W T ri rf s i _ hx
  | t + 1, 0, s, g, i, h, _ => absurd h (by omega)
  | t + 1, count + 1, s, g, i, h, hx => by
    rw [trajAux_getD_succ] at hx
    rw [trajAux_getD_succ]
    exact trajAux_excited_decay W T ri rf t count _ _ i (by omega) hx

/-! ### Sentinel remapping lemmas -/

theorem remapCell_neg_one : remapCell (-1) = 2 := rfl

theorem remapCell_ne (v : Int) (h : v ≠ -1) : remapCell v = v := by
  unfold remapCell
  rw [if_neg h]

theorem map_remapCell_getD :
    ∀ (row : List Int) (i : Nat),
      (row.map remapCell).getD i 0 = remapCell (row.getD i 0)
  | [], i => by simp [remapCell]
  | a :: t, 0 => by simp
  | a :: t, i + 1 => by
    simp only [List.map_cons, List.getD_cons_succ]
    exact map_remapCell_getD t i

theorem map_map_remapCell_getD :
    ∀ (m : List (List Int)) (t : Nat),
      (m.map (fun row => row.map remapCell)).getD t [] =
        (m.getD t []).map remapCell
  | [], t => by simp
  | r :: rest, 0 => by simp
  | r :: rest, t + 1 => by
    simp only [List.map_cons, List.getD_cons_succ]
    exact map_map_remapCell_getD rest t

/-! ### Claim theorems -/

/-- C1: for every fixed parameter set, connectome, and seed, two independent
invocations of `simulation` (i.e. invocations from arbitrary prior global
generator states `g0`, `g1`) produce bit-identical output activation
matrices: the run is deterministic given the seed. -/
theorem simulation_deterministic (n_steps n_therm : Nat)
    (ri rf prop_active T : ℚ) (W : List (List ℚ)) (seed : Nat)
    (g0 g1 : Nat) :
    simulation n_steps n_therm ri rf prop_active T W seed g0 =
      simulation n_steps n_therm ri rf prop_active T W seed g1 := rfl

/-- C3: a node that is Quiescent at step `t` is Excited at step `t+1` iff
either its Bernoulli draw with probability `ri` succeeds or the weighted sum
of incoming edge weights from nodes Excited at `t` exceeds the threshold `T`
(logical OR of the two sufficient conditions); otherwise it remains
Quiescent. -/
theorem quiescent_activation_rule (W : List (List ℚ)) (T ri rf : ℚ)
    (s : List Int) (g : Nat) (n : Nat) (hn : n < s.length)
    (hq : s.getD n 0 = 0) :
    ((step W T ri rf s g).1.getD n 0 = 1 ↔
      ((bernDraw ri (rngAt W T ri rf s g n)).1 = true ∨
        T < netInput W s n)) ∧
    (¬ ((bernDraw ri (rngAt W T ri rf s g n)).1 = true ∨
        T < netInput W s n) →
      (step W T ri rf s g).1.getD n 0 = 0) := by
  rw [step_getD W T ri rf s g n hn, stepNode_quiescent W T ri rf s n _ hq]
  constructor
  · by_cases hc : (bernDraw ri (rngAt W T ri rf s g n)).1 = true ∨
        T < netInput W s n
    · rw [if_pos hc]
      exact ⟨fun _ => hc, fun _ => rfl⟩
    · rw [if_neg hc]
      exact ⟨fun h => absurd h (by decide), fun h => absurd h hc⟩
  · intro hc
    rw [if_neg hc]

/-- Witness for C3 at a concrete quiescent node: `W = [[0]]`, `T = 0`,
`ri = rf = 0`, snapshot `[0]`, node `0`. -/
theorem quiescent_activation_rule_witness :
    ((step [[0]] 0 0 0 [0] 5).1.getD 0 0 = 1 ↔
      ((bernDraw 0 (rngAt [[0]] 0 0 0 [0] 5 0)).1 = true ∨
        (0 : ℚ) < netInput [[0]] [0] 0)) ∧
    (¬ ((bernDraw 0 (rngAt [[0]] 0 0 0 [0] 5 0)).1 = true ∨
        (0 : ℚ) < netInput [[0]] [0] 0) →
      (step [[0]] 0 0 0 [0] 5).1.getD 0 0 = 0) :=
  quiescent_activation_rule [[0]] 0 0 0 [0] 5 0 (by decide) (by decide)

/-- C4: every node Excited at step `t` of the run's trajectory is Refractory
(internal marker `-1`) at step `t+1`, unconditionally. -/
theorem excited_decay (m : SERModel) (W : List (List ℚ)) (g : Nat)
    (t i : Nat) (ht : t + 1 < m.n_steps)
    (hx : ((m.trajectory W g).getD t []).getD i 0 = 1) :
    ((m.trajectory W g).getD (t + 1) []).getD i 0 = -1 := by
  unfold SERModel.trajectory at hx ⊢
  exact trajAux_excited_decay W m.threshold m.prob_spont_act m.prob_recovery
    t m.n_steps _ _ i ht hx

/-- Witness for C4: with `prop_e = 1` on a 1-node network the single node is
Excited at step 0 and the internal marker at step 1 is `-1`. -/
theorem excited_decay_witness :
    (((SERModel.mk 2 0 0 0 1 0).trajectory [[0]] 3).getD 1 []).getD 0 0 =
      -1 :=
  excited_decay (SERModel.mk 2 0 0 0 1 0) [[0]] 3 0 0 (by decide)
    (by with_unfolding_all rfl)

/-- C6: if `n_transient >= n_steps`, or the connectome is not square, or one
of the probability parameters `ri`, `rf`, `prop_active` lies outside
`[0,1]`, the run fails with a configuration error and no activation matrix
is produced. -/
theorem config_error_detected (n_steps n_therm : Nat)
    (ri rf prop_active T : ℚ) (W : List (List ℚ)) (seed g0 : Nat)
    (h : n_steps ≤ n_therm ∨ ¬ (∀ row ∈ W, row.length = W.length) ∨
      ri < 0 ∨ 1 < ri ∨ rf < 0 ∨ 1 < rf ∨
      prop_active < 0 ∨ 1 < prop_active) :
    isConfigFailure (simulation n_steps n_therm ri rf prop_active T W seed
      g0) = true := by
  by_cases h1 : n_steps ≤ n_therm
  · simp [simulation, SERModel.simulate, h1, isConfigFailure, Except.map]
  · by_cases h2 : ∀ row ∈ W, row.length = W.length
    · by_cases h3 : 0 ≤ ri ∧ ri ≤ 1 ∧ 0 ≤ rf ∧ rf ≤ 1 ∧
          0 ≤ prop_active ∧ prop_active ≤ 1
      · exfalso
        obtain ⟨ha, hb, hc, hd, he, hf⟩ := h3
        rcases h with h | h | h | h | h | h | h | h
        · exact h1 h
        · exact h h2
        · linarith
        · linarith
        · linarith
        · linarith
        · linarith
        · linarith
      · have h2' : ¬ ∃ x ∈ W, ¬ x.length = W.length := by
          push_neg
          exact h2
        simp [simulation, SERModel.simulate, h1, h2', h3, isConfigFailure,
          Except.map]
    · simp [simulation, SERModel.simulate, h1, h2, isConfigFailure,
        Except.map]

/-- Witness for C6: `n_steps = n_transient = 1` is rejected. -/
theorem config_error_detected_witness :
    isConfigFailure (simulation 1 1 0 0 0 0 [[0]] 0 0) = true :=
  config_error_detected 1 1 0 0 0 0 [[0]] 0 0 (Or.inl (by decide))

/-- C2: every cell of the matrix returned by `simulation` is `0` (Quiescent),
`1` (Excited) or the sentinel `2` (Refractory); in particular the internal
marker `-1` never appears in the returned matrix. -/
theorem simulation_output_values (n_steps n_therm : Nat)
    (ri rf prop_active T : ℚ) (W : List (List ℚ)) (seed g0 : Nat)
    (m : List (List Int))
    (h : simulation n_steps n_therm ri rf prop_active T W seed g0 =
      Except.ok m) :
    ∀ row ∈ m, ∀ v ∈ row, v = 0 ∨ v = 1 ∨ v = 2 := by
  obtain ⟨res, hres, hm⟩ := simulation_ok _ _ _ _ _ _ _ _ _ _ h
  obtain ⟨hdrop, _⟩ := simulate_ok _ _ _ _ hres
  subst hm
  intro row hrow v hv
  simp only [List.mem_map] at hrow
  obtain ⟨row0, hrow0, hrowEq⟩ := hrow
  subst hrowEq
  simp only [List.mem_map] at hv
  obtain ⟨v0, hv0, hvEq⟩ := hv
  subst hvEq
  rw [hdrop] at hrow0
  have hrowTraj := List.mem_of_mem_drop hrow0
  have hval : v0 = -1 ∨ v0 = 0 ∨ v0 = 1 := by
    unfold SERModel.trajectory at hrowTraj
    refine trajAux_mem _ _ _ _ _ _ _ ?_ row0 hrowTraj v0 hv0
    intro w hw
    rcases initSnapshot_mem _ _ _ w hw with h | h
    · exact Or.inr (Or.inl h)
    · exact Or.inr (Or.inr h)
  rcases hval with h | h | h <;> subst h
  · exact Or.inr (Or.inr rfl)
  · exact Or.inl rfl
  · exact Or.inr (Or.inl rfl)

/-- Witness for C2 on the concrete run
`simulation 2 0 0 0 0 0 [[0]] 1 0 = ok [[0],[0]]` at row `[0]`, cell `0`. -/
theorem simulation_output_values_witness :
    (0 : Int) = 0 ∨ (0 : Int) = 1 ∨ (0 : Int) = 2 :=
  simulation_output_values 2 0 0 0 0 0 [[0]] 1 0 [[0], [0]]
    (by with_unfolding_all rfl) [0] (by decide) 0 (by decide)

/-- C5: the matrix returned by `simulation` has exactly
`n_steps - n_transient` rows and `N` columns (`N` the connectome dimension),
and equals the trajectory with the first `n_transient` (transient) rows
dropped — they are never included in the output. -/
theorem simulation_output_shape (n_steps n_therm : Nat)
    (ri rf prop_active T : ℚ) (W : List (List ℚ)) (seed g0 : Nat)
    (m : List (List Int))
    (h : simulation n_steps n_therm ri rf prop_active T W seed g0 =
      Except.ok m) :
    m.length = n_steps - n_therm ∧ (∀ row ∈ m, row.length = W.length) ∧
      m = (((SERModel.mk n_steps n_therm ri rf prop_active T).trajectory W
        (np_random_seed seed g0)).drop n_therm).map
        (fun row => row.map remapCell) := by
  obtain ⟨res, hres, hm⟩ := simulation_ok _ _ _ _ _ _ _ _ _ _ h
  obtain ⟨hdrop, _⟩ := simulate_ok _ _ _ _ hres
  subst hm
  refine ⟨?_, ?_, by rw [hdrop]⟩
  · rw [List.length_map, hdrop, List.length_drop]
    congr 1
    unfold SERModel.trajectory
    exact trajAux_length _ _ _ _ _ _ _
  · intro row hrow
    simp only [List.mem_map] at hrow
    obtain ⟨row0, hrow0, hrowEq⟩ := hrow
    subst hrowEq
    rw [List.length_map]
    rw [hdrop] at hrow0
    have hrowTraj := List.mem_of_mem_drop hrow0
    unfold SERModel.trajectory at hrowTraj
    rw [trajAux_row_length _ _ _ _ _ _ _ row0 hrowTraj, initSnapshot_length]

/-- Witness for C5: the concrete run
`simulation 2 0 0 0 0 0 [[0]] 1 0 = ok [[0],[0]]` has `2 - 0` rows. -/
theorem simulation_output_shape_witness :
    ([[0], [0]] : List (List Int)).length = 2 - 0 :=
  (simulation_output_shape 2 0 0 0 0 0 [[0]] 1 0 [[0], [0]]
    (by with_unfolding_all rfl)).1

/-- C7: at `t = 0` the initial snapshot has exactly
`round(prop_active * N)` nodes Excited, all remaining nodes Quiescent, and
no node Refractory. -/
theorem init_fraction (n : Nat) (p : ℚ) (g : Nat) (hp0 : 0 ≤ p)
    (hp1 : p ≤ 1) :
    (initSnapshot n p g).1.length = n ∧
    (initSnapshot n p g).1.count 1 = numExcited p n ∧
    (initSnapshot n p g).1.count 0 = n - numExcited p n ∧
    ∀ v ∈ (initSnapshot n p g).1, v = 0 ∨ v = 1 := by
  have hperm : ((shuffle (List.range n) g).1).Perm (List.range n) :=
    shuffle_perm _ _
  have hnodup : ((shuffle (List.range n) g).1).Nodup :=
    (hperm.nodup_iff).mpr (List.nodup_range n)
  have hchnd : (((shuffle (List.range n) g).1).take
      (numExcited p n)).Nodup :=
    List.Nodup.sublist (List.take_sublist _ _) hnodup
  have hlt : ∀ x ∈ ((shuffle (List.range n) g).1).take (numExcited p n),
      x < n := by
    intro x hx
    exact List.mem_range.mp (hperm.mem_iff.mp (List.take_subset _ _ hx))
  have hlenchosen : (((shuffle (List.range n) g).1).take
      (numExcited p n)).length = numExcited p n := by
    rw [List.length_take, hperm.length_eq, List.length_range]
    exact Nat.min_eq_left (numExcited_le p n hp0 hp1)
  have hfst : (initSnapshot n p g).1 = (List.range n).map
      (fun i => if i ∈ ((shuffle (List.range n) g).1).take (numExcited p n)
        then (1 : Int) else 0) := rfl
  have hcount1 : (initSnapshot n p g).1.count 1 = numExcited p n := by
    rw [hfst, count_one_eq_filter_length,
      (filter_mem_perm _ n hchnd hlt).length_eq, hlenchosen]
  have hlen : (initSnapshot n p g).1.length = n := initSnapshot_length n p g
  have hmem : ∀ v ∈ (initSnapshot n p g).1, v = 0 ∨ v = 1 :=
    fun v hv => initSnapshot_mem n p g v hv
  have hsum := count_zero_add_count_one _ hmem
  refine ⟨hlen, hcount1, ?_, hmem⟩
  rw [hlen, hcount1] at hsum
  omega

/-- Witness for C7 at `n = 3`, `p = 1/2`: the initial snapshot holds
exactly `round(3/2) = 2` Excited nodes. -/
theorem init_fraction_witness :
    (initSnapshot 3 (1 / 2) 7).1.count 1 = numExcited (1 / 2) 3 :=
  (init_fraction 3 (1 / 2) 7 (by norm_num) (by norm_num)).2.1

/-- C8 counterexample: with the all-zero connectome `[[0]]`, `ri = 0` and the
(unconstrained) threshold `T = -1`, node `0` is not Excited at step 0 yet is
Excited at step 1 — the zero network input already exceeds a negative
threshold, so the claim fails as stated. -/
theorem no_coupling_counterexample :
    simulation 2 0 0 0 0 (-1) [[0]] 0 0 = Except.ok [[0], [1]] ∧
    (([[0], [1]] : List (List Int)).getD 0 []).getD 0 0 ≠ 1 ∧
    (([[0], [1]] : List (List Int)).getD 1 []).getD 0 0 = 1 :=
  ⟨by with_unfolding_all rfl, by decide, by decide⟩

/-- C8 (amended): if every connectome entry is zero, `ri = 0` and moreover
`0 ≤ T`, then a node not Excited at step 0 of the trajectory is never
Excited at any step. -/
theorem no_coupling_amended (m : SERModel) (W : List (List ℚ)) (g : Nat)
    (i t : Nat) (hri : m.prob_spont_act = 0)
    (hW : ∀ row ∈ W, ∀ w ∈ row, w = 0) (hT : 0 ≤ m.threshold)
    (h0 : ((m.trajectory W g).getD 0 []).getD i 0 ≠ 1) :
    ((m.trajectory W g).getD t []).getD i 0 ≠ 1 := by
  unfold SERModel.trajectory at h0 ⊢
  rw [hri] at h0 ⊢
  cases hc : m.n_steps with
  | zero => simp [trajAux]
  | succ c =>
    rw [hc] at h0
    refine trajAux_no_activation W m.threshold m.prob_recovery hW hT i
      (c + 1) _ _ ?_ t
    simpa [trajAux] using h0

/-- Witness for the amended C8: 1-node zero network, `ri = 0`, `T = 0`,
no seeded excitation; the node is still not Excited at step 1. -/
theorem no_coupling_amended_witness :
    (((SERModel.mk 2 0 0 0 0 0).trajectory [[0]] 0).getD 1 []).getD 0 0 ≠
      1 :=
  no_coupling_amended (SERModel.mk 2 0 0 0 0 0) [[0]] 0 0 1 rfl
    (by decide) (le_refl 0) (by with_unfolding_all decide)

/-- C10: the matrix returned by `simulation` equals the matrix produced by
`SERModel.simulate` with every `-1` entry replaced by `2` and every other
entry unchanged. -/
theorem remap_frame (n_steps n_therm : Nat) (ri rf prop_active T : ℚ)
    (W : List (List ℚ)) (seed g0 : Nat) (mInt mOut : List (List Int))
    (hInt : (SERModel.mk n_steps n_therm ri rf prop_active T).simulate W
      (np_random_seed seed g0) = Except.ok mInt)
    (hOut : simulation n_steps n_therm ri rf prop_active T W seed g0 =
      Except.ok mOut) :
    mOut = mInt.map (fun row => row.map remapCell) ∧
    (∀ t i : Nat, (mOut.getD t []).getD i 0 =
      remapCell ((mInt.getD t []).getD i 0)) ∧
    remapCell (-1) = 2 ∧ (∀ v : Int, v ≠ -1 → remapCell v = v) := by
  obtain ⟨res, hres, hm⟩ := simulation_ok _ _ _ _ _ _ _ _ _ _ hOut
  have hresInt : res = mInt := by
    have hh := hres.symm.trans hInt
    injection hh
  subst hm
  subst hresInt
  refine ⟨rfl, ?_, rfl, fun v hv => remapCell_ne v hv⟩
  intro t i
  rw [map_map_remapCell_getD, map_remapCell_getD]

/-- Witness for C10: concrete run with `prop_e = 1` on a 1-node network;
the engine matrix `[[1],[-1]]` is returned as `[[1],[2]]`. -/
theorem remap_frame_witness :
    ([[1], [2]] : List (List Int)) =
      ([[1], [-1]] : List (List Int)).map (fun row => row.map remapCell) :=
  (remap_frame 2 0 0 0 1 0 [[0]] 5 0 [[1], [-1]] [[1], [2]]
    (by with_unfolding_all rfl) (by with_unfolding_all rfl)).1
